import Mathlib

/-!
Verification of the root-detector traversal-and-classification pipeline.

The cluster API (list namespaces, list pods, get a pod, open an exec stream)
is modelled as a record of fallible functions; the Go functions of `main.go`
(`containsString`, `listNamespaces`, `listPods`, `listContainers`,
`execCommandInContainer`, `findContainersWithErrors`) are translated one by
one.  The traversal additionally records the sequence of cluster calls it
performs, so that "namespace never visited" properties can be stated.
-/

/-- ContainerInfo stores information about a container (main.go lines 21-26). -/
structure ContainerInfo where
  Namespace : String
  PodName : String
  Container : String
  CommandExec : String
deriving DecidableEq, Repr

/-- One entry of a pod spec's container list (name of the container). -/
structure ContainerSpecEntry where
  name : String
deriving DecidableEq, Repr

/-- A pod spec: the declared containers and the declared init containers. -/
structure PodSpec where
  containers : List ContainerSpecEntry
  initContainers : List ContainerSpecEntry
deriving DecidableEq, Repr

/-- A pod: its name and its spec. -/
structure Pod where
  name : String
  spec : PodSpec
deriving DecidableEq, Repr

/-- The options passed when opening an exec stream (v1.PodExecOptions,
main.go lines 112-119). -/
structure PodExecOptions where
  Command : List String
  Container : String
  Stdin : Bool
  Stdout : Bool
  Stderr : Bool
  TTY : Bool
deriving DecidableEq, Repr

/-- Outcome of attempting a streaming exec: either `NewSPDYExecutor` fails,
or the stream runs producing captured stdout and stderr text and possibly a
stream error (main.go lines 124-136). -/
inductive ExecOutcome where
  | executorErr (e : String)
  | streamed (stdout stderr : String) (streamErr : Option String)
deriving DecidableEq, Repr

/-- The cluster session: the four remote capabilities the program uses.
Each field models one Kubernetes API call and may fail. -/
structure Cluster where
  namespacesList : Except String (List String)
  podsList : String → Except String (List Pod)
  podGet : String → String → Except String Pod
  exec : String → String → PodExecOptions → ExecOutcome

/-- Does the character list `hay` start with `nee`? -/
def strStartsWith : List Char → List Char → Bool
  | _, [] => true
  | [], _ :: _ => false
  | c :: cs, d :: ds => c == d && strStartsWith cs ds

/-- Does the character list `hay` contain `nee` as a contiguous run? -/
def strContainsChars : List Char → List Char → Bool
  | [], nee => strStartsWith [] nee
  | c :: cs, nee => strStartsWith (c :: cs) nee || strContainsChars cs nee

/-- `strings.Contains s sub`: substring test on strings. -/
def stringContains (s sub : String) : Bool :=
  strContainsChars s.data sub.data

/-- containsString checks if a string is present in a slice of strings
(main.go lines 62-69). -/
def containsString : List String → String → Bool
  | [], _ => false
  | s :: rest, str => if s == str then true else containsString rest str

/-- listNamespaces lists all non-excluded namespaces in the cluster
(main.go lines 43-59). -/
def listNamespaces (c : Cluster) (excludeNamespaces : List String) :
    Except String (List String) :=
  match c.namespacesList with
  | .error e => .error e
  | .ok items => .ok (items.filter (fun ns => !containsString excludeNamespaces ns))

/-- listPods lists all pods in the specified namespace (main.go lines 72-85). -/
def listPods (c : Cluster) (ns : String) : Except String (List String) :=
  match c.podsList ns with
  | .error e => .error e
  | .ok items => .ok (items.map Pod.name)

/-- listContainers lists all containers in the specified pod
(main.go lines 88-101): only the spec-level `Containers` list is read. -/
def listContainers (c : Cluster) (ns podName : String) :
    Except String (List String) :=
  match c.podGet ns podName with
  | .error e => .error e
  | .ok pod => .ok (pod.spec.containers.map ContainerSpecEntry.name)

/-- execCommandInContainer executes a command in the specified container and
returns the output (main.go lines 104-139).  The command is wrapped as
`["sh", "-c", command]`; the exec options carry exactly the flags
stdin=false, stdout=true, stderr=true, tty=false; on any error the returned
output string is empty; on success the captured stdout text is returned and
the captured stderr text is dropped. -/
def execCommandInContainer (ex : String → String → PodExecOptions → ExecOutcome)
    (ns podName containerName command : String) : String × Option String :=
  let cmd := ["sh", "-c", command]
  let option : PodExecOptions :=
    ⟨cmd, containerName, false, true, true, false⟩
  match ex ns podName option with
  | .executorErr e => ("", some e)
  | .streamed _ _ (some e) => ("", some e)
  | .streamed stdout _ none => (stdout, none)

/-- A record of one cluster call made during the traversal. -/
inductive Call where
  | listNamespacesCall
  | listPodsCall (ns : String)
  | listContainersCall (ns podName : String)
  | execCall (ns podName containerName command : String)
deriving DecidableEq, Repr

/-- The innermost loop of `findContainersWithErrors` (main.go lines 167-189):
probe each container of one pod with `whoami`, classifying failures into
error records and root-containing outputs into root records.  The third
component records the exec calls performed. -/
def traverseContainers (c : Cluster) (ns podName : String) :
    List String → List ContainerInfo × List ContainerInfo × List Call
  | [] => ([], [], [])
  | containerName :: rest =>
    let command := "whoami"
    let (output, err) :=
      execCommandInContainer c.exec ns podName containerName command
    let (roots, errs, calls) := traverseContainers c ns podName rest
    match err with
    | some _ =>
      (roots, ⟨ns, podName, containerName, command⟩ :: errs,
       Call.execCall ns podName containerName command :: calls)
    | none =>
      if stringContains output "root" then
        (⟨ns, podName, containerName, command⟩ :: roots, errs,
         Call.execCall ns podName containerName command :: calls)
      else
        (roots, errs,
         Call.execCall ns podName containerName command :: calls)

/-- The per-pod loop of `findContainersWithErrors` (main.go lines 160-190):
list the containers of each pod; on failure skip the pod and continue. -/
def traversePods (c : Cluster) (ns : String) :
    List String → List ContainerInfo × List ContainerInfo × List Call
  | [] => ([], [], [])
  | podName :: rest =>
    match listContainers c ns podName with
    | .error _ =>
      let (roots, errs, calls) := traversePods c ns rest
      (roots, errs, Call.listContainersCall ns podName :: calls)
    | .ok containers =>
      let (r1, e1, c1) := traverseContainers c ns podName containers
      let (r2, e2, c2) := traversePods c ns rest
      (r1 ++ r2, e1 ++ e2,
       Call.listContainersCall ns podName :: (c1 ++ c2))

/-- The per-namespace loop of `findContainersWithErrors` (main.go lines
153-191): list the pods of each namespace; on failure skip the namespace and
continue with the next one. -/
def traverseNamespaces (c : Cluster) :
    List String → List ContainerInfo × List ContainerInfo × List Call
  | [] => ([], [], [])
  | ns :: rest =>
    match listPods c ns with
    | .error _ =>
      let (roots, errs, calls) := traverseNamespaces c rest
      (roots, errs, Call.listPodsCall ns :: calls)
    | .ok pods =>
      let (r1, e1, c1) := traversePods c ns pods
      let (r2, e2, c2) := traverseNamespaces c rest
      (r1 ++ r2, e1 ++ e2, Call.listPodsCall ns :: (c1 ++ c2))

/-- findContainersWithErrors finds root containers and lists containers where
the command errored (main.go lines 142-194).  Returns the classification
result (or the fatal namespace-listing error) together with the trace of
cluster calls performed. -/
def findContainersWithErrors (c : Cluster) :
    Except String (List ContainerInfo × List ContainerInfo) × List Call :=
  let excludeNamespaces := ["kube-system", "kube-public", "kube-node-lease"]
  match listNamespaces c excludeNamespaces with
  | .error e => (.error e, [Call.listNamespacesCall])
  | .ok namespaces =>
    let (roots, errs, calls) := traverseNamespaces c namespaces
    (.ok (roots, errs), Call.listNamespacesCall :: calls)

/-- The probe executed on one container by the traversal: `whoami` through
`execCommandInContainer`. -/
def probeResult (c : Cluster) (ns podName containerName : String) :
    String × Option String :=
  execCommandInContainer c.exec ns podName containerName "whoami"

/-- The root record the traversal produces for one container, if any. -/
def rootRecord (c : Cluster) (ns podName containerName : String) :
    Option ContainerInfo :=
  match probeResult c ns podName containerName with
  | (output, none) =>
    if stringContains output "root" then
      some ⟨ns, podName, containerName, "whoami"⟩
    else none
  | (_, some _) => none

/-- The error record the traversal produces for one container, if any. -/
def errRecord (c : Cluster) (ns podName containerName : String) :
    Option ContainerInfo :=
  match probeResult c ns podName containerName with
  | (_, some _) => some ⟨ns, podName, containerName, "whoami"⟩
  | (_, none) => none

/-- The closed form of what the per-pod loop accumulates into
`rootContainers` for one pod. -/
def podRoots (c : Cluster) (ns podName : String) : List ContainerInfo :=
  match listContainers c ns podName with
  | .error _ => []
  | .ok cts => cts.filterMap (rootRecord c ns podName)

/-- The closed form of what the per-pod loop accumulates into
`errorContainers` for one pod. -/
def podErrs (c : Cluster) (ns podName : String) : List ContainerInfo :=
  match listContainers c ns podName with
  | .error _ => []
  | .ok cts => cts.filterMap (errRecord c ns podName)

/-- The closed form of the cluster calls made while processing one pod. -/
def podCalls (c : Cluster) (ns podName : String) : List Call :=
  match listContainers c ns podName with
  | .error _ => [Call.listContainersCall ns podName]
  | .ok cts =>
    Call.listContainersCall ns podName ::
      cts.map (fun ct => Call.execCall ns podName ct "whoami")

/-- The closed form of what the per-namespace loop accumulates into
`rootContainers` for one namespace. -/
def nsRoots (c : Cluster) (ns : String) : List ContainerInfo :=
  match listPods c ns with
  | .error _ => []
  | .ok pods => pods.flatMap (podRoots c ns)

/-- The closed form of what the per-namespace loop accumulates into
`errorContainers` for one namespace. -/
def nsErrs (c : Cluster) (ns : String) : List ContainerInfo :=
  match listPods c ns with
  | .error _ => []
  | .ok pods => pods.flatMap (podErrs c ns)

/-- The closed form of the cluster calls made while processing one namespace. -/
def nsCalls (c : Cluster) (ns : String) : List Call :=
  match listPods c ns with
  | .error _ => [Call.listPodsCall ns]
  | .ok pods => Call.listPodsCall ns :: pods.flatMap (podCalls c ns)

/-- Strips the captured stderr text from an exec outcome, leaving stdout and
the error status untouched. -/
def stripStderr : ExecOutcome → ExecOutcome
  | .executorErr e => .executorErr e
  | .streamed stdout _ err => .streamed stdout "" err

/-- Does this call target the given namespace (pod listing, pod get, or
exec)?  The namespace-listing call targets no particular namespace. -/
def callTouches (ns : String) : Call → Bool
  | .listNamespacesCall => false
  | .listPodsCall n => n == ns
  | .listContainersCall n _ => n == ns
  | .execCall n _ _ _ => n == ns

/-- The busybox pod of the end-to-end scenario. -/
def busyboxPod : Pod := ⟨"busybox-pod", ⟨[⟨"busybox"⟩], []⟩⟩

/-- The end-to-end scenario cluster: namespaces `default` and `kube-system`,
one pod `busybox-pod` in `default` with one container `busybox` whose probe
prints `root\n`. -/
def demoCluster : Cluster where
  namespacesList := .ok ["default", "kube-system"]
  podsList := fun ns =>
    if ns == "default" then .ok [busyboxPod]
    else if ns == "kube-system" then .ok [⟨"trap-pod", ⟨[⟨"trap"⟩], []⟩⟩]
    else .error "namespace not found"
  podGet := fun ns podName =>
    if ns == "default" && podName == "busybox-pod" then .ok busyboxPod
    else .error "pod not found"
  exec := fun _ _ _ => .streamed "root\n" "" none

/-- A pod whose container spec can never be fetched. -/
def badPod : Pod := ⟨"badpod", ⟨[⟨"hidden"⟩], []⟩⟩

/-- A pod with three containers: one whose probe stream fails, one whose
probe prints `root\n` and one whose probe prints `nobody\n`.  It also
declares an init container, which the enumerator must ignore. -/
def goodPod : Pod :=
  ⟨"goodpod", ⟨[⟨"errct"⟩, ⟨"rootct"⟩, ⟨"nonroot"⟩], [⟨"initct"⟩]⟩⟩

/-- A cluster exercising every non-fatal error path: listing pods fails in
`badns`, fetching `badpod` fails, and probing `errct` fails. -/
def errDemoCluster : Cluster where
  namespacesList := .ok ["badns", "goodns"]
  podsList := fun ns =>
    if ns == "badns" then .error "pods fail"
    else if ns == "goodns" then .ok [badPod, goodPod]
    else .error "namespace not found"
  podGet := fun ns podName =>
    if ns == "goodns" && podName == "goodpod" then .ok goodPod
    else .error "pod not found"
  exec := fun _ _ o =>
    if o.Container == "errct" then .streamed "" "" (some "stream fail")
    else if o.Container == "rootct" then .streamed "root\n" "" none
    else .streamed "nobody\n" "" none

/-- A cluster session whose namespace listing fails. -/
def failAuthCluster : Cluster where
  namespacesList := .error "boom"
  podsList := fun _ => .error "unused"
  podGet := fun _ _ => .error "unused"
  exec := fun _ _ _ => .executorErr "unused"

/-- A cluster session exposing a single namespace named `kube-system`. -/
def singleNsCluster : Cluster where
  namespacesList := .ok ["kube-system"]
  podsList := fun _ => .error "unused"
  podGet := fun _ _ => .error "unused"
  exec := fun _ _ _ => .executorErr "unused"

/-- An exec backend for a container image that ships no `sh` binary: any
command vector led by `sh` fails to start, while any other command would
have reported a root identity. -/
def noShBackend : String → String → PodExecOptions → ExecOutcome :=
  fun _ _ o =>
    match o.Command with
    | "sh" :: _ => .executorErr "sh not found"
    | _ => .streamed "root\n" "" none

/-- An exec backend that answers only the wrapped `whoami` command vector. -/
def wrapOnlyBackendA : String → String → PodExecOptions → ExecOutcome :=
  fun _ _ o =>
    if o.Command == ["sh", "-c", "whoami"] then .streamed "root\n" "" none
    else .executorErr "one"

/-- A second backend agreeing with `wrapOnlyBackendA` exactly on the wrapped
`whoami` command vector and nowhere else. -/
def wrapOnlyBackendB : String → String → PodExecOptions → ExecOutcome :=
  fun _ _ o =>
    if o.Command == ["sh", "-c", "whoami"] then .streamed "root\n" "" none
    else .executorErr "two"

/-- An exec backend that answers only requests carrying the flag pattern
stdin=false, stdout=true, stderr=true, tty=false. -/
def flagOnlyBackendA : String → String → PodExecOptions → ExecOutcome :=
  fun _ _ o =>
    if o.Stdin == false && o.Stdout && o.Stderr && o.TTY == false then
      .streamed "root\n" "" none
    else .executorErr "one"

/-- A second backend agreeing with `flagOnlyBackendA` exactly on the flag
pattern stdin=false, stdout=true, stderr=true, tty=false and nowhere else. -/
def flagOnlyBackendB : String → String → PodExecOptions → ExecOutcome :=
  fun _ _ o =>
    if o.Stdin == false && o.Stdout && o.Stderr && o.TTY == false then
      .streamed "root\n" "" none
    else .executorErr "two"

theorem containsString_iff_mem (slice : List String) (s : String) :
    containsString slice s = true ↔ s ∈ slice := by
  induction slice with
  | nil => simp [containsString]
  | cons x rest ih =>
    simp only [containsString, List.mem_cons]
    cases hbe : x == s with
    | true =>
      have hx : x = s := by simpa using hbe
      simp [hx]
    | false =>
      have hx : ¬x = s := by simpa using hbe
      simp [ih, hx, Ne.symm hx]

theorem traverseContainers_eq (c : Cluster) (ns podName : String)
    (cts : List String) :
    traverseContainers c ns podName cts =
      (cts.filterMap (rootRecord c ns podName),
       cts.filterMap (errRecord c ns podName),
       cts.map (fun ct => Call.execCall ns podName ct "whoami")) := by
  induction cts with
  | nil => rfl
  | cons ct rest ih =>
    simp only [traverseContainers, ih, List.filterMap_cons, List.map_cons]
    cases hpr : execCommandInContainer c.exec ns podName ct "whoami" with
    | mk output err =>
      cases err with
      | none =>
        simp only [rootRecord, errRecord, probeResult, hpr]
        by_cases hroot : stringContains output "root" = true
        · simp [hroot]
        · simp [hroot]
      | some e =>
        simp [rootRecord, errRecord, probeResult, hpr]

theorem traversePods_eq (c : Cluster) (ns : String) (pods : List String) :
    traversePods c ns pods =
      (pods.flatMap (podRoots c ns), pods.flatMap (podErrs c ns),
       pods.flatMap (podCalls c ns)) := by
  induction pods with
  | nil => rfl
  | cons p rest ih =>
    simp only [traversePods, ih, List.flatMap_cons]
    cases hlc : listContainers c ns p with
    | error e => simp [podRoots, podErrs, podCalls, hlc]
    | ok cts => simp [podRoots, podErrs, podCalls, hlc, traverseContainers_eq]

theorem traverseNamespaces_eq (c : Cluster) (nss : List String) :
    traverseNamespaces c nss =
      (nss.flatMap (nsRoots c), nss.flatMap (nsErrs c),
       nss.flatMap (nsCalls c)) := by
  induction nss with
  | nil => rfl
  | cons ns rest ih =>
    simp only [traverseNamespaces, ih, List.flatMap_cons]
    cases hlp : listPods c ns with
    | error e => simp [nsRoots, nsErrs, nsCalls, hlp]
    | ok pods => simp [nsRoots, nsErrs, nsCalls, hlp, traversePods_eq]

theorem findContainersWithErrors_eq (c : Cluster) :
    findContainersWithErrors c =
      match listNamespaces c ["kube-system", "kube-public", "kube-node-lease"] with
      | .error e => (.error e, [Call.listNamespacesCall])
      | .ok nss =>
        (.ok (nss.flatMap (nsRoots c), nss.flatMap (nsErrs c)),
         Call.listNamespacesCall :: nss.flatMap (nsCalls c)) := by
  simp only [findContainersWithErrors]
  cases hln : listNamespaces c ["kube-system", "kube-public", "kube-node-lease"] with
  | error e => rfl
  | ok nss => simp [traverseNamespaces_eq]

theorem rootRecord_some {c : Cluster} {ns podName ct : String}
    {r : ContainerInfo} (h : rootRecord c ns podName ct = some r) :
    ∃ o, probeResult c ns podName ct = (o, none) ∧
      stringContains o "root" = true ∧
      r = ⟨ns, podName, ct, "whoami"⟩ := by
  unfold rootRecord at h
  cases hpr : probeResult c ns podName ct with
  | mk output err =>
    rw [hpr] at h
    cases err with
    | none =>
      dsimp only at h
      by_cases hroot : stringContains output "root" = true
      · rw [if_pos hroot] at h
        exact ⟨output, rfl, hroot, (Option.some_inj.mp h).symm⟩
      · rw [if_neg hroot] at h
        exact absurd h (by simp)
    | some e =>
      dsimp only at h
      exact absurd h (by simp)

theorem errRecord_some {c : Cluster} {ns podName ct : String}
    {r : ContainerInfo} (h : errRecord c ns podName ct = some r) :
    ∃ o e, probeResult c ns podName ct = (o, some e) ∧
      r = ⟨ns, podName, ct, "whoami"⟩ := by
  unfold errRecord at h
  cases hpr : probeResult c ns podName ct with
  | mk output err =>
    rw [hpr] at h
    cases err with
    | none =>
      dsimp only at h
      exact absurd h (by simp)
    | some e =>
      dsimp only at h
      exact ⟨output, e, rfl, (Option.some_inj.mp h).symm⟩

theorem runRoots_probe {c : Cluster} {nss : List String} {r : ContainerInfo}
    (h : r ∈ nss.flatMap (nsRoots c)) :
    (probeResult c r.Namespace r.PodName r.Container).2 = none ∧
    stringContains (probeResult c r.Namespace r.PodName r.Container).1 "root" =
      true ∧
    r.CommandExec = "whoami" := by
  rcases List.mem_flatMap.mp h with ⟨ns, _, hr⟩
  unfold nsRoots at hr
  cases hlp : listPods c ns with
  | error e =>
    rw [hlp] at hr
    exact absurd hr (List.not_mem_nil r)
  | ok pods =>
    rw [hlp] at hr
    rcases List.mem_flatMap.mp hr with ⟨p, _, hr2⟩
    unfold podRoots at hr2
    cases hlc : listContainers c ns p with
    | error e =>
      rw [hlc] at hr2
      exact absurd hr2 (List.not_mem_nil r)
    | ok cts =>
      rw [hlc] at hr2
      rcases List.mem_filterMap.mp hr2 with ⟨ct, _, hsome⟩
      obtain ⟨o, hpr, hroot, hre⟩ := rootRecord_some hsome
      subst hre
      simpa [hpr] using hroot

theorem runErrs_probe {c : Cluster} {nss : List String} {r : ContainerInfo}
    (h : r ∈ nss.flatMap (nsErrs c)) :
    ∃ e, (probeResult c r.Namespace r.PodName r.Container).2 = some e := by
  rcases List.mem_flatMap.mp h with ⟨ns, _, hr⟩
  unfold nsErrs at hr
  cases hlp : listPods c ns with
  | error e =>
    rw [hlp] at hr
    exact absurd hr (List.not_mem_nil r)
  | ok pods =>
    rw [hlp] at hr
    rcases List.mem_flatMap.mp hr with ⟨p, _, hr2⟩
    unfold podErrs at hr2
    cases hlc : listContainers c ns p with
    | error e =>
      rw [hlc] at hr2
      exact absurd hr2 (List.not_mem_nil r)
    | ok cts =>
      rw [hlc] at hr2
      rcases List.mem_filterMap.mp hr2 with ⟨ct, _, hsome⟩
      obtain ⟨o, e, hpr, hre⟩ := errRecord_some hsome
      subst hre
      exact ⟨e, by simp [hpr]⟩

theorem listPodsCall_not_mem_podCalls {c : Cluster} {ns podName n : String} :
    ¬Call.listPodsCall n ∈ podCalls c ns podName := by
  unfold podCalls
  cases hlc : listContainers c ns podName with
  | error e => simp
  | ok cts =>
    simp only [List.mem_cons, List.mem_map]
    rintro (h | ⟨ct, _, h⟩) <;> exact Call.noConfusion h

theorem listPodsCall_mem_nsCalls {c : Cluster} {m n : String} :
    Call.listPodsCall n ∈ nsCalls c m ↔ n = m := by
  unfold nsCalls
  cases hlp : listPods c m with
  | error e => simp
  | ok pods =>
    simp only [List.mem_cons, List.mem_flatMap]
    constructor
    · rintro (h | ⟨p, _, hp⟩)
      · exact (Call.listPodsCall.injEq _ _).mp h
      · exact absurd hp listPodsCall_not_mem_podCalls
    · rintro rfl
      exact Or.inl rfl

theorem containsString_eq_false_iff (slice : List String) (s : String) :
    containsString slice s = false ↔ ¬s ∈ slice := by
  constructor
  · intro h hmem
    exact absurd ((containsString_iff_mem slice s).mpr hmem) (by simp [h])
  · intro h
    cases hb : containsString slice s
    · rfl
    · exact absurd ((containsString_iff_mem slice s).mp hb) h

/-- C9: `containsString` is a pure membership predicate: it returns true
exactly when the query string is an element of the slice under exact string
comparison, and on `{"apple","banana","cherry","date"}` it rejects `"grape"`
and accepts `"apple"`. -/
theorem claim_membership_predicate :
    (∀ slice s, containsString slice s = true ↔ s ∈ slice) ∧
    containsString ["apple", "banana", "cherry", "date"] "grape" = false ∧
    containsString ["apple", "banana", "cherry", "date"] "apple" = true :=
  ⟨containsString_iff_mem, by decide, by decide⟩

/-- C5: whenever the cluster session lists namespaces successfully,
`listNamespaces` returns exactly the visible names not in the exclusion
set, in the session's order (a sublist), and no excluded name ever appears
in its output. -/
theorem claim_namespace_enumerator (c : Cluster) (excl items : List String)
    (h : c.namespacesList = .ok items) :
    listNamespaces c excl =
      .ok (items.filter (fun n => !containsString excl n)) ∧
    (∀ n, n ∈ items.filter (fun n => !containsString excl n) ↔
      (n ∈ items ∧ ¬n ∈ excl)) ∧
    (items.filter (fun n => !containsString excl n)).Sublist items ∧
    (∀ n ∈ excl, ¬n ∈ items.filter (fun n => !containsString excl n)) := by
  refine ⟨?_, ?_, List.filter_sublist items, ?_⟩
  · unfold listNamespaces
    rw [h]
  · intro n
    simp [List.mem_filter, containsString_eq_false_iff]
  · intro n hn hmem
    rw [List.mem_filter] at hmem
    simp only [Bool.not_eq_true', containsString_eq_false_iff] at hmem
    exact hmem.2 hn

/-- Witness for C5 at a concrete cluster session and exclusion set. -/
theorem claim_namespace_enumerator_witness :
    listNamespaces singleNsCluster ["kube-system"] = .ok [] ∧
    ¬"kube-system" ∈ (["kube-system"] : List String).filter
      (fun n => !containsString ["kube-system"] n) := by
  have h := claim_namespace_enumerator singleNsCluster ["kube-system"]
    ["kube-system"] rfl
  exact ⟨h.1, h.2.2.2 "kube-system" (by decide)⟩

/-- C8: whenever the pod can be fetched, `listContainers` returns exactly
the container names declared in the pod's spec-level containers list in
declaration order, and a name declared only among the init containers never
appears in its output. -/
theorem claim_container_enumerator (c : Cluster) (ns podName : String)
    (p : Pod) (h : c.podGet ns podName = .ok p) :
    listContainers c ns podName =
      .ok (p.spec.containers.map ContainerSpecEntry.name) ∧
    (∀ n, n ∈ p.spec.containers.map ContainerSpecEntry.name →
      ∃ entry ∈ p.spec.containers, entry.name = n) ∧
    (∀ entry ∈ p.spec.initContainers,
      (∀ entry2 ∈ p.spec.containers, entry2.name ≠ entry.name) →
      ¬entry.name ∈ p.spec.containers.map ContainerSpecEntry.name) := by
  refine ⟨?_, ?_, ?_⟩
  · unfold listContainers
    rw [h]
  · intro n hn
    exact List.mem_map.mp hn
  · intro entry _ hfresh hmem
    rcases List.mem_map.mp hmem with ⟨entry2, hentry2, hname⟩
    exact hfresh entry2 hentry2 hname

/-- Witness for C8 at a concrete pod carrying an init container. -/
theorem claim_container_enumerator_witness :
    listContainers errDemoCluster "goodns" "goodpod" =
      .ok ["errct", "rootct", "nonroot"] ∧
    ¬("initct" : String) ∈
      goodPod.spec.containers.map ContainerSpecEntry.name := by
  have h := claim_container_enumerator errDemoCluster "goodns" "goodpod"
    goodPod rfl
  exact ⟨h.1, h.2.2 ⟨"initct"⟩ (by decide) (by decide)⟩

/-- C7: `execCommandInContainer` opens the exec channel with exactly the
flags stdin=false, stdout=true, stderr=true, tty=false (its behaviour only
depends on the backend's answers for options with those flags); on success
it returns the captured stdout text for the caller-supplied command string;
and it never inspects the captured stderr text. -/
theorem claim_probe_executor :
    (∀ ex1 ex2 : String → String → PodExecOptions → ExecOutcome,
      ∀ ns podName ct cmd : String,
      (∀ n p o, o.Stdin = false → o.Stdout = true → o.Stderr = true →
        o.TTY = false → ex1 n p o = ex2 n p o) →
      execCommandInContainer ex1 ns podName ct cmd =
        execCommandInContainer ex2 ns podName ct cmd) ∧
    (∀ ex : String → String → PodExecOptions → ExecOutcome,
      ∀ ns podName ct cmd out errText : String,
      ex ns podName ⟨["sh", "-c", cmd], ct, false, true, true, false⟩ =
        .streamed out errText none →
      execCommandInContainer ex ns podName ct cmd = (out, none)) ∧
    (∀ ex : String → String → PodExecOptions → ExecOutcome,
      ∀ ns podName ct cmd : String,
      execCommandInContainer (fun n p o => stripStderr (ex n p o))
          ns podName ct cmd =
        execCommandInContainer ex ns podName ct cmd) := by
  refine ⟨?_, ?_, ?_⟩
  · intro ex1 ex2 ns podName ct cmd hagree
    simp only [execCommandInContainer]
    rw [hagree ns podName ⟨["sh", "-c", cmd], ct, false, true, true, false⟩
      rfl rfl rfl rfl]
  · intro ex ns podName ct cmd out errText h
    simp only [execCommandInContainer]
    rw [h]
  · intro ex ns podName ct cmd
    simp only [execCommandInContainer]
    cases hx : ex ns podName ⟨["sh", "-c", cmd], ct, false, true, true, false⟩ with
    | executorErr e => rfl
    | streamed out errText serr => cases serr <;> rfl

/-- Witness for C7: two backends that agree on the exact flag pattern give
the same result, and a successful stream's stdout is returned verbatim. -/
theorem claim_probe_executor_witness :
    execCommandInContainer flagOnlyBackendA "default" "p" "c" "id" =
      execCommandInContainer flagOnlyBackendB "default" "p" "c" "id" ∧
    execCommandInContainer
        (fun _ _ _ => ExecOutcome.streamed "root\n" "warning" none)
        "default" "p" "c" "whoami" = ("root\n", none) := by
  constructor
  · exact claim_probe_executor.1 flagOnlyBackendA flagOnlyBackendB
      "default" "p" "c" "id"
      (fun n p o h1 h2 h3 h4 => by
        simp only [flagOnlyBackendA, flagOnlyBackendB, h1, h2, h3, h4]
        rfl)
  · exact claim_probe_executor.2.1
      (fun _ _ _ => ExecOutcome.streamed "root\n" "warning" none)
      "default" "p" "c" "whoami" "root\n" "warning" rfl

/-- C10: the executor always starts `["sh", "-c", command]` rather than the
command itself (its behaviour only depends on the backend's answer for that
wrapped vector), so a container without an `sh` binary yields an exec
failure even when a direct command would have reported root; and whenever
it returns an error the returned output string is empty. -/
theorem claim_shell_wrapping :
    (∀ ex1 ex2 : String → String → PodExecOptions → ExecOutcome,
      ∀ ns podName ct cmd : String,
      (∀ n p o, o.Command = ["sh", "-c", cmd] → ex1 n p o = ex2 n p o) →
      execCommandInContainer ex1 ns podName ct cmd =
        execCommandInContainer ex2 ns podName ct cmd) ∧
    (∀ ex : String → String → PodExecOptions → ExecOutcome,
      ∀ ns podName ct cmd out e : String,
      execCommandInContainer ex ns podName ct cmd = (out, some e) →
      out = "") ∧
    (execCommandInContainer noShBackend "default" "p" "c" "whoami" =
      ("", some "sh not found") ∧
    noShBackend "default" "p" ⟨["whoami"], "c", false, true, true, false⟩ =
      .streamed "root\n" "" none) := by
  refine ⟨?_, ?_, rfl, rfl⟩
  · intro ex1 ex2 ns podName ct cmd hagree
    simp only [execCommandInContainer]
    rw [hagree ns podName ⟨["sh", "-c", cmd], ct, false, true, true, false⟩ rfl]
  · intro ex ns podName ct cmd out e h
    simp only [execCommandInContainer] at h
    cases hx : ex ns podName ⟨["sh", "-c", cmd], ct, false, true, true, false⟩ with
    | executorErr e2 =>
      rw [hx] at h
      exact ((Prod.mk.injEq _ _ _ _).mp h).1.symm
    | streamed out2 errText serr =>
      rw [hx] at h
      cases serr with
      | none =>
        dsimp only at h
        exact absurd ((Prod.mk.injEq _ _ _ _).mp h).2 (by simp)
      | some e2 =>
        dsimp only at h
        exact ((Prod.mk.injEq _ _ _ _).mp h).1.symm

/-- Witness for C10: two backends agreeing only on the wrapped command give
the same result, and an error result carries an empty output string. -/
theorem claim_shell_wrapping_witness :
    execCommandInContainer wrapOnlyBackendA "default" "p" "c" "whoami" =
      execCommandInContainer wrapOnlyBackendB "default" "p" "c" "whoami" ∧
    ("" : String) = "" := by
  constructor
  · exact claim_shell_wrapping.1 wrapOnlyBackendA wrapOnlyBackendB
      "default" "p" "c" "whoami"
      (fun n p o ho => by
        simp only [wrapOnlyBackendA, wrapOnlyBackendB, ho]
        rfl)
  · exact claim_shell_wrapping.2.1 noShBackend "default" "p" "c" "whoami"
      "" "sh not found" rfl

/-- C1: in the container-probing loop, when a probe succeeds a record is
appended to the root list iff the captured output contains the substring
`root`; when it does not, no record of that container appears in either
list; every root record carries probe command `whoami`; and an output of
exactly `root\n` yields a root record with command `whoami`. -/
theorem claim_root_classification (c : Cluster) (ns podName : String)
    (cts : List String) :
    (∀ r ∈ (traverseContainers c ns podName cts).1, r.CommandExec = "whoami") ∧
    (∀ ct o, ct ∈ cts → probeResult c ns podName ct = (o, none) →
      ((⟨ns, podName, ct, "whoami"⟩ : ContainerInfo) ∈
          (traverseContainers c ns podName cts).1 ↔
        stringContains o "root" = true)) ∧
    (∀ ct o, probeResult c ns podName ct = (o, none) →
      stringContains o "root" = false →
      ∀ r, (r ∈ (traverseContainers c ns podName cts).1 ∨
            r ∈ (traverseContainers c ns podName cts).2.1) →
        ¬(r.Namespace = ns ∧ r.PodName = podName ∧ r.Container = ct)) ∧
    (∀ ct, ct ∈ cts → probeResult c ns podName ct = ("root\n", none) →
      (⟨ns, podName, ct, "whoami"⟩ : ContainerInfo) ∈
        (traverseContainers c ns podName cts).1) := by
  rw [traverseContainers_eq]
  dsimp only
  refine ⟨?_, ?_, ?_, ?_⟩
  · rintro r hr
    rcases List.mem_filterMap.mp hr with ⟨ct, _, hsome⟩
    obtain ⟨o, hpr, hroot, hre⟩ := rootRecord_some hsome
    subst hre
    rfl
  · intro ct o hct hpr
    constructor
    · intro hmem
      rcases List.mem_filterMap.mp hmem with ⟨ct2, hct2, hsome⟩
      obtain ⟨o2, hpr2, hroot2, hre⟩ := rootRecord_some hsome
      have hcteq : ct = ct2 := congrArg ContainerInfo.Container hre
      subst hcteq
      rw [hpr] at hpr2
      injection hpr2 with ho _
      rw [ho]
      exact hroot2
    · intro hroot
      refine List.mem_filterMap.mpr ⟨ct, hct, ?_⟩
      unfold rootRecord
      rw [hpr]
      dsimp only
      rw [if_pos hroot]
  · rintro ct o hpr hroot r hmem ⟨hns, hpod, hct⟩
    rcases hmem with hr | hr
    · rcases List.mem_filterMap.mp hr with ⟨ct2, _, hsome⟩
      obtain ⟨o2, hpr2, hroot2, hre⟩ := rootRecord_some hsome
      subst hre
      have hcteq : ct2 = ct := hct
      subst hcteq
      rw [hpr] at hpr2
      injection hpr2 with ho _
      rw [← ho] at hroot2
      simp [hroot] at hroot2
    · rcases List.mem_filterMap.mp hr with ⟨ct2, _, hsome⟩
      obtain ⟨o2, e, hpr2, hre⟩ := errRecord_some hsome
      subst hre
      have hcteq : ct2 = ct := hct
      subst hcteq
      rw [hpr] at hpr2
      injection hpr2 with _ hcontr
      exact Option.noConfusion hcontr
  · intro ct hct hpr
    refine List.mem_filterMap.mpr ⟨ct, hct, ?_⟩
    unfold rootRecord
    rw [hpr]
    dsimp only
    rw [if_pos (by decide : stringContains "root\n" "root" = true)]

/-- Witness for C1 at a concrete cluster: the container whose probe prints
`root\n` lands in the root list with command `whoami`. -/
theorem claim_root_classification_witness :
    (⟨"goodns", "goodpod", "rootct", "whoami"⟩ : ContainerInfo) ∈
      (traverseContainers errDemoCluster "goodns" "goodpod"
        ["errct", "rootct", "nonroot"]).1 :=
  (claim_root_classification errDemoCluster "goodns" "goodpod"
      ["errct", "rootct", "nonroot"]).2.2.2 "rootct" (by decide) (by decide)

/-- C2: a namespace-listing failure aborts the whole run with the error and
no partial result; a pod-listing failure skips that namespace and continues
with the remaining namespaces; a container-listing failure skips that pod
and continues; a probe failure appends the container to the error list
(never the root list) and the remaining sibling containers are still
probed. -/
theorem claim_error_handling :
    (∀ c : Cluster, ∀ e : String, c.namespacesList = .error e →
      findContainersWithErrors c = (.error e, [Call.listNamespacesCall])) ∧
    (∀ c : Cluster, ∀ ns : String, ∀ rest : List String, ∀ e : String,
      listPods c ns = .error e →
      traverseNamespaces c (ns :: rest) =
        ((traverseNamespaces c rest).1, (traverseNamespaces c rest).2.1,
         Call.listPodsCall ns :: (traverseNamespaces c rest).2.2)) ∧
    (∀ c : Cluster, ∀ ns podName : String, ∀ rest : List String,
      ∀ e : String, listContainers c ns podName = .error e →
      traversePods c ns (podName :: rest) =
        ((traversePods c ns rest).1, (traversePods c ns rest).2.1,
         Call.listContainersCall ns podName :: (traversePods c ns rest).2.2)) ∧
    (∀ c : Cluster, ∀ ns podName ct : String, ∀ rest : List String,
      ∀ e : String,
      (execCommandInContainer c.exec ns podName ct "whoami").2 = some e →
      traverseContainers c ns podName (ct :: rest) =
        ((traverseContainers c ns podName rest).1,
         (⟨ns, podName, ct, "whoami"⟩ : ContainerInfo) ::
           (traverseContainers c ns podName rest).2.1,
         Call.execCall ns podName ct "whoami" ::
           (traverseContainers c ns podName rest).2.2)) := by
  refine ⟨?_, ?_, ?_, ?_⟩
  · intro c e h
    rw [findContainersWithErrors_eq]
    unfold listNamespaces
    rw [h]
  · intro c ns rest e h
    rcases htr : traverseNamespaces c rest with ⟨roots, errs, calls⟩
    simp only [traverseNamespaces, h, htr]
  · intro c ns podName rest e h
    rcases htr : traversePods c ns rest with ⟨roots, errs, calls⟩
    simp only [traversePods, h, htr]
  · intro c ns podName ct rest e h
    rcases hx : execCommandInContainer c.exec ns podName ct "whoami"
      with ⟨output, err⟩
    rw [hx] at h
    dsimp only at h
    subst h
    rcases htr : traverseContainers c ns podName rest with ⟨roots, errs, calls⟩
    simp only [traverseContainers, hx, htr]

/-- Witness for C2: each failure mode exercised on a concrete cluster. -/
theorem claim_error_handling_witness :
    findContainersWithErrors failAuthCluster =
      (.error "boom", [Call.listNamespacesCall]) ∧
    traverseNamespaces errDemoCluster ["badns"] =
      ([], [], [Call.listPodsCall "badns"]) ∧
    traversePods errDemoCluster "goodns" ["badpod"] =
      ([], [], [Call.listContainersCall "goodns" "badpod"]) ∧
    traverseContainers errDemoCluster "goodns" "goodpod" ["errct"] =
      ([], [⟨"goodns", "goodpod", "errct", "whoami"⟩],
       [Call.execCall "goodns" "goodpod" "errct" "whoami"]) := by
  refine ⟨?_, ?_, ?_, ?_⟩
  · exact claim_error_handling.1 failAuthCluster "boom" rfl
  · exact claim_error_handling.2.1 errDemoCluster "badns" [] "pods fail" rfl
  · exact claim_error_handling.2.2.1 errDemoCluster "goodns" "badpod" []
      "pod not found" rfl
  · exact claim_error_handling.2.2.2 errDemoCluster "goodns" "goodpod"
      "errct" [] "stream fail" rfl

/-- C3: in every completed traversal run the two returned lists are
disjoint: no namespace+pod+container identity appears in both the root list
and the error list. -/
theorem claim_disjointness (c : Cluster) (roots errs : List ContainerInfo)
    (calls : List Call)
    (h : findContainersWithErrors c = (.ok (roots, errs), calls)) :
    ∀ r ∈ roots, ∀ r2 ∈ errs,
      ¬(r.Namespace = r2.Namespace ∧ r.PodName = r2.PodName ∧
        r.Container = r2.Container) := by
  rw [findContainersWithErrors_eq] at h
  cases hln : listNamespaces c ["kube-system", "kube-public", "kube-node-lease"]
    with
  | error e =>
    rw [hln] at h
    dsimp only at h
    injection h with h1 _
    exact Except.noConfusion h1
  | ok nss =>
    rw [hln] at h
    dsimp only at h
    injection h with h1 _
    injection h1 with h1
    injection h1 with hr he
    subst hr
    subst he
    intro r hr r2 hr2
    rintro ⟨hns, hpod, hct⟩
    obtain ⟨hnone, _, _⟩ := runRoots_probe hr
    obtain ⟨e, hsome⟩ := runErrs_probe hr2
    rw [hns, hpod, hct] at hnone
    rw [hnone] at hsome
    exact Option.noConfusion hsome

/-- Witness for C3: the root record and the error record of the concrete
error-demo run differ in identity. -/
theorem claim_disjointness_witness :
    ¬((⟨"goodns", "goodpod", "rootct", "whoami"⟩ : ContainerInfo).Namespace =
        (⟨"goodns", "goodpod", "errct", "whoami"⟩ : ContainerInfo).Namespace ∧
      (⟨"goodns", "goodpod", "rootct", "whoami"⟩ : ContainerInfo).PodName =
        (⟨"goodns", "goodpod", "errct", "whoami"⟩ : ContainerInfo).PodName ∧
      (⟨"goodns", "goodpod", "rootct", "whoami"⟩ : ContainerInfo).Container =
        (⟨"goodns", "goodpod", "errct", "whoami"⟩ : ContainerInfo).Container) :=
  claim_disjointness errDemoCluster
    [⟨"goodns", "goodpod", "rootct", "whoami"⟩]
    [⟨"goodns", "goodpod", "errct", "whoami"⟩]
    (findContainersWithErrors errDemoCluster).2
    rfl
    ⟨"goodns", "goodpod", "rootct", "whoami"⟩ (by decide)
    ⟨"goodns", "goodpod", "errct", "whoami"⟩ (by decide)

/-- C4: on the concrete scenario cluster (namespaces `default` and
`kube-system`, pod `busybox-pod` in `default` with container `busybox`
whose probe prints `root\n`), the run classifies exactly that container as
root with command `whoami`, records no errors, and performs no pod-listing,
container-listing or probe call against `kube-system`. -/
theorem claim_end_to_end :
    (findContainersWithErrors demoCluster).1 =
      .ok ([⟨"default", "busybox-pod", "busybox", "whoami"⟩], []) ∧
    (findContainersWithErrors demoCluster).2.all
      (fun call => !callTouches "kube-system" call) = true :=
  ⟨rfl, rfl⟩

/-- C6: the exclusion set is a caller-supplied parameter of the namespace
enumerator (two different sets give different outputs on the same session),
and the traversal's default set is exactly
`{kube-system, kube-public, kube-node-lease}`: a namespace visible to the
session has its pods listed iff it is outside that set. -/
theorem claim_exclusion_parameter :
    (listNamespaces singleNsCluster [] = .ok ["kube-system"] ∧
     listNamespaces singleNsCluster ["kube-system"] = .ok []) ∧
    (∀ c : Cluster, ∀ items : List String, ∀ n : String,
      c.namespacesList = .ok items →
      (Call.listPodsCall n ∈ (findContainersWithErrors c).2 ↔
        (n ∈ items ∧
         ¬n ∈ (["kube-system", "kube-public", "kube-node-lease"] :
           List String)))) := by
  refine ⟨⟨rfl, rfl⟩, ?_⟩
  intro c items n h
  rw [findContainersWithErrors_eq]
  unfold listNamespaces
  rw [h]
  dsimp only
  simp only [List.mem_cons, List.mem_flatMap]
  constructor
  · rintro (h1 | ⟨m, hm, hcall⟩)
    · exact Call.noConfusion h1
    · obtain rfl := listPodsCall_mem_nsCalls.mp hcall
      rw [List.mem_filter] at hm
      refine ⟨hm.1, ?_⟩
      have hf := hm.2
      simp only [Bool.not_eq_true'] at hf
      simpa using (containsString_eq_false_iff _ _).mp hf
  · rintro ⟨hin, hnot⟩
    refine Or.inr ⟨n, ?_, listPodsCall_mem_nsCalls.mpr rfl⟩
    rw [List.mem_filter]
    refine ⟨hin, ?_⟩
    simp only [Bool.not_eq_true']
    exact (containsString_eq_false_iff _ _).mpr (by simpa using hnot)

/-- Witness for C6: the non-excluded namespace `badns` of the concrete
cluster has its pods listed during the run. -/
theorem claim_exclusion_parameter_witness :
    Call.listPodsCall "badns" ∈ (findContainersWithErrors errDemoCluster).2 :=
  (claim_exclusion_parameter.2 errDemoCluster ["badns", "goodns"] "badns"
      rfl).mpr ⟨by decide, by decide⟩
